import Mathlib

/-!
Verification of the `ElasticsearchDocumentStore` (haystack/database/elasticsearch.py)
against its natural-language specification.

The Python code is shallowly embedded: Python dicts become ordered association
lists (`List (String × JVal)`) with Python's insertion-order/overwrite-in-place
semantics, JSON-like values become the inductive `JVal`, fallible code returns
`Except PyErr`, and the calls to the external Elasticsearch engine are modelled
by returning the request that would be issued (an error result means the raise
happened before any request was sent, matching the source's control flow).
-/

namespace HaystackES

/-- A JSON-like Python value: the payloads stored in Elasticsearch `_source`
dicts, filter values, and constructed query bodies. `null` models Python
`None`. -/
inductive JVal where
  | null : JVal
  | bool : Bool → JVal
  | num : ℚ → JVal
  | str : String → JVal
  | arr : List JVal → JVal
  | obj : List (String × JVal) → JVal

/-- Python `v is None`. -/
def JVal.isNull : JVal → Bool
  | .null => true
  | _ => false

/-- Python `type(v) == list`. -/
def JVal.isArr : JVal → Bool
  | .arr _ => true
  | _ => false

/-- Python `d[k]` lookup on an insertion-ordered dict (first matching key;
dicts built by the embedded code never hold a duplicate key). -/
def dictGet : List (String × JVal) → String → Option JVal
  | [], _ => none
  | (k, v) :: d, key => if k = key then some v else dictGet d key

/-- Python `d[k] = v`: overwrite in place if the key exists, else append. -/
def dictSet : List (String × JVal) → String → JVal → List (String × JVal)
  | [], key, val => [(key, val)]
  | (k, v) :: d, key, val =>
    if k = key then (k, val) :: d else (k, v) :: dictSet d key val

/-- Python `d.pop(k, default)`: remove the entry for `k` (first occurrence). -/
def dictPop : List (String × JVal) → String → List (String × JVal)
  | [], _ => []
  | (k, v) :: d, key => if k = key then d else (k, v) :: dictPop d key

/-- String-valued version of `dictSet`, for the template-substitution dict. -/
def dictSetS : List (String × String) → String → String → List (String × String)
  | [], key, val => [(key, val)]
  | (k, v) :: d, key, val =>
    if k = key then (k, val) :: d else (k, v) :: dictSetS d key val

/-- Lookup in the template-substitution dict. -/
def lookupS : List (String × String) → String → Option String
  | [], _ => none
  | (k, v) :: d, key => if k = key then some v else lookupS d key

/-- Python truthiness of an optional list (`if filters:`): `None` and `[]`
are falsy. -/
def pyTruthyList : Option (List α) → Bool
  | none => false
  | some l => !l.isEmpty

/-- Python truthiness of an optional string (`elif custom_query:`): `None`
and `""` are falsy. -/
def pyTruthyStr : Option String → Bool
  | none => false
  | some s => !(s = "")

/-- The exceptions the embedded code can raise. `invalidFilterFormat` models
the `ValueError` raised by the keyword-relevance filter validation (the
spec's `InvalidFilterFormat`); `templateValueError` the `ValueError` raised
by `string.Template.substitute`; `jsonParseError` a `json.loads` failure. -/
inductive PyErr where
  | invalidFilterFormat : String → PyErr
  | keyError : String → PyErr
  | typeError : String → PyErr
  | templateValueError : PyErr
  | jsonParseError : PyErr
  | runtimeError : String → PyErr
  | assertionError : PyErr
  | indexError : PyErr
  | recursionError : PyErr
deriving DecidableEq

/-- Is an `Except` result a success? -/
def isOkE : Except PyErr α → Bool
  | .ok _ => true
  | .error _ => false

/-- The configuration fixed at `ElasticsearchDocumentStore.__init__` (only the
fields read by the embedded methods; connection parameters are external). -/
structure ESConfig where
  index : String := "document"
  label_index : String := "label"
  search_fields : List String := ["text"]
  text_field : String := "text"
  name_field : String := "name"
  embedding_field : String := "embedding"
  embedding_dim : ℕ := 768
  excluded_meta_data : Option (List String) := none
  faq_question_field : Option String := none

/-- Modelled from the spec: the `Document` record type (section 3 of the spec;
haystack/database/base.py is not under src/). `id` is a string identity,
`text` the primary content, `meta` a string-to-scalar mapping, `embedding`
an optional vector, `question`/`tags` optional FAQ fields, `query_score`
populated only on retrieval. Optional fields hold `none` for Python `None`. -/
structure Document where
  id : String
  text : Option JVal := none
  meta : List (String × JVal) := []
  embedding : Option JVal := none
  question : Option JVal := none
  tags : Option JVal := none
  query_score : Option ℚ := none

/-- Python value of an optional field (`None` when absent). -/
def optJ : Option JVal → JVal
  | some v => v
  | none => .null

/-- Modelled from the spec: `Document.to_dict` (haystack/database/base.py is
not under src/) — the plain-dict form of a Document, one entry per attribute
in declaration order, with `None` for unset optional attributes and the
`meta` mapping kept nested under the key `"meta"`. -/
def Document.to_dict (d : Document) : List (String × JVal) :=
  [("id", .str d.id),
   ("text", optJ d.text),
   ("meta", .obj d.meta),
   ("embedding", optJ d.embedding),
   ("question", optJ d.question),
   ("tags", optJ d.tags),
   ("query_score", match d.query_score with
      | some q => .num q
      | none => .null)]

/-- Modelled from the spec: the `Label` record type (section 3 of the spec;
haystack/database/base.py is not under src/). -/
structure Label where
  question : String
  answer : String
  is_correct_answer : Bool
  is_correct_document : Bool
  no_answer : Bool
  origin : String
  document_id : String
  model_id : String
  type : String
  offset_start_in_doc : Int

/-- Modelled from the spec: `Label.to_dict` (haystack/database/base.py is not
under src/) — one entry per attribute in declaration order. -/
def Label.to_dict (l : Label) : List (String × JVal) :=
  [("question", .str l.question),
   ("answer", .str l.answer),
   ("is_correct_answer", .bool l.is_correct_answer),
   ("is_correct_document", .bool l.is_correct_document),
   ("no_answer", .bool l.no_answer),
   ("origin", .str l.origin),
   ("document_id", .str l.document_id),
   ("model_id", .str l.model_id),
   ("type", .str l.type),
   ("offset_start_in_doc", .num l.offset_start_in_doc)]

/-- An Elasticsearch hit as used by `_convert_es_hit_to_document`: its `_id`,
its `_source` dict and its `_score` (`none` models a missing/null score). -/
structure ESHit where
  id : String
  source : List (String × JVal)
  score : Option ℚ

/-- A call to `elasticsearch.helpers.bulk`: the records submitted, the
`request_timeout` argument and the `refresh` argument (`none` when the
keyword was not passed, leaving the engine's default). -/
structure BulkCall where
  records : List (List (String × JVal))
  request_timeout : Option ℕ
  refresh : Option String

/-- A single-quote character (for reproducing the painless-script string). -/
def sq : String := Char.toString (Char.ofNat 39)

/-- Python `str(v)` as used on the popped `"id"` entry in `write_documents`
(that entry always holds a string, so only the `str` case is reached). -/
def pyStr : JVal → String
  | .str s => s
  | .null => "None"
  | .bool true => "True"
  | .bool false => "False"
  | .num q => if q.den = 1 then toString q.num else toString q
  | _ => ""

/-- JSON escaping of one character (the subset exercised here). -/
def escChar (c : Char) : String :=
  if c = '"' then "\\\"" else if c = '\\' then "\\\\" else c.toString

/-- Rendering of a numeric literal by `json.dumps` (integers print as
integers; non-integral values do not occur in the embedded call sites). -/
def qRepr (q : ℚ) : String :=
  if q.den = 1 then toString q.num else toString q.num ++ "/" ++ toString q.den

/-- Python `json.dumps` with default separators, fuelled for termination. -/
def jsonDumpsF : ℕ → JVal → String
  | 0, _ => ""
  | fuel + 1, v =>
    match v with
    | .null => "null"
    | .bool true => "true"
    | .bool false => "false"
    | .num q => qRepr q
    | .str s => "\"" ++ String.join (s.data.map escChar) ++ "\""
    | .arr xs => "[" ++ String.intercalate ", " (xs.map (jsonDumpsF fuel)) ++ "]"
    | .obj fs =>
      "\x7b" ++
        String.intercalate ", "
          (fs.map fun kv => jsonDumpsF fuel (.str kv.1) ++ ": " ++ jsonDumpsF fuel kv.2) ++
        "\x7d"

/-- Python `json.dumps` (as applied to filter values in the custom-query
path). The fuel models CPython's default recursion limit; values nested
deeper than that raise `RecursionError` in the source and are not reached
by any call site here. -/
def jsonDumps (v : JVal) : String := jsonDumpsF 1000 v

/-- First character of a Python `string.Template` identifier. -/
def isIdentStart (c : Char) : Bool := c.isAlpha || c = '_'

/-- Later characters of a Python `string.Template` identifier. -/
def isIdentChar (c : Char) : Bool := c.isAlphanum || c = '_'

/-- Does a character list start with a valid `Template` identifier? -/
def pyIdent : List Char → Bool
  | [] => false
  | c :: _ => isIdentStart c

/-- The exceptions `string.Template.substitute` can raise: `KeyError` for a
placeholder missing from the mapping, `ValueError` for an invalid
placeholder, `RecursionError` as fuel exhaustion (unreachable with the fuel
supplied below). -/
inductive TemplErr where
  | key : String → TemplErr
  | value : TemplErr
  | recursion : TemplErr
deriving DecidableEq

/-- The `PyErr` corresponding to a `TemplErr` escaping `Template.substitute`. -/
def liftTemplErr : TemplErr → PyErr
  | .key n => .keyError n
  | .value => .templateValueError
  | .recursion => .recursionError

/-- One pass of Python `string.Template.substitute` over the template's
characters: `$$` is a literal dollar, `$name` and `$\x7bname\x7d` are
placeholders replaced from the mapping (`KeyError` when absent), anything
else after `$` is a `ValueError`. Fuelled; one fuel unit consumes at least
one character. -/
def substituteAux (subs : List (String × String)) : ℕ → List Char → Except TemplErr String
  | 0, _ => .error .recursion
  | _ + 1, [] => .ok ""
  | fuel + 1, c :: cs =>
    if c = '$' then
      match cs with
      | '$' :: rest => (fun r => "$" ++ r) <$> substituteAux subs fuel rest
      | '\x7b' :: rest =>
        let name := rest.takeWhile isIdentChar
        match rest.dropWhile isIdentChar with
        | '\x7d' :: rest2 =>
          if pyIdent name then
            match lookupS subs (String.mk name) with
            | some v => (fun r => v ++ r) <$> substituteAux subs fuel rest2
            | none => .error (.key (String.mk name))
          else .error .value
        | _ => .error .value
      | rest =>
        let name := rest.takeWhile isIdentChar
        if pyIdent name then
          match lookupS subs (String.mk name) with
          | some v => (fun r => v ++ r) <$> substituteAux subs fuel (rest.dropWhile isIdentChar)
          | none => .error (.key (String.mk name))
        else .error .value
    else (fun r => c.toString ++ r) <$> substituteAux subs fuel cs

/-- Python `string.Template(t).substitute(subs)`. -/
def template_substitute (t : String) (subs : List (String × String)) : Except TemplErr String :=
  substituteAux subs (t.length + 1) t.data

/-- JSON whitespace. -/
def isWsChar (c : Char) : Bool := c = ' ' || c = '\t' || c = '\n' || c = '\r'

/-- Drop leading JSON whitespace. -/
def skipWs (cs : List Char) : List Char := cs.dropWhile isWsChar

/-- Value of a decimal digit character. -/
def digitVal (c : Char) : ℕ := c.toNat - 48

/-- Natural number denoted by a list of digit characters. -/
def digitsToNat (ds : List Char) : ℕ := ds.foldl (fun a c => 10 * a + digitVal c) 0

/-- Parse a JSON number (optional minus, integer part, optional fraction;
exponents are not used by any embedded call site). -/
def parseNumber (cs : List Char) : Option (ℚ × List Char) :=
  let (neg, cs1) := match cs with
    | '-' :: rest => (true, rest)
    | _ => (false, cs)
  let intDigits := cs1.takeWhile Char.isDigit
  let cs2 := cs1.dropWhile Char.isDigit
  if intDigits.isEmpty then none
  else
    let ipart : ℚ := (digitsToNat intDigits : ℚ)
    let (q, rest) : ℚ × List Char :=
      match cs2 with
      | '.' :: cs3 =>
        let fracDigits := cs3.takeWhile Char.isDigit
        ((ipart + (digitsToNat fracDigits : ℚ) / ((10 : ℚ) ^ fracDigits.length)),
          cs3.dropWhile Char.isDigit)
      | _ => (ipart, cs2)
    some (if neg then -q else q, rest)

/-- Decode a JSON string escape character (the subset exercised here;
`\u` escapes are not used by any embedded call site). -/
def unescChar (c : Char) : Char :=
  if c = 'n' then '\n'
  else if c = 't' then '\t'
  else if c = 'r' then '\r'
  else if c = 'b' then Char.ofNat 8
  else if c = 'f' then Char.ofNat 12
  else c

/-- Parse the remainder of a JSON string literal (after the opening quote),
returning its characters and the rest of the input. -/
def parseStrChars : List Char → Option (List Char × List Char)
  | [] => none
  | '"' :: rest => some ([], rest)
  | '\\' :: c :: rest =>
    (parseStrChars rest).map (fun p => (unescChar c :: p.1, p.2))
  | c :: rest => (parseStrChars rest).map (fun p => (c :: p.1, p.2))

mutual

/-- Parse one JSON value (recursive descent, fuelled). -/
def parseVal : ℕ → List Char → Option (JVal × List Char)
  | 0, _ => none
  | fuel + 1, cs =>
    match skipWs cs with
    | '\x7b' :: rest =>
      (match skipWs rest with
       | '\x7d' :: rest2 => some (.obj [], rest2)
       | _ => parseMembers fuel (skipWs rest) [])
    | '[' :: rest =>
      (match skipWs rest with
       | ']' :: rest2 => some (.arr [], rest2)
       | _ => parseElems fuel (skipWs rest) [])
    | '"' :: rest => (parseStrChars rest).map (fun p => (.str (String.mk p.1), p.2))
    | 't' :: 'r' :: 'u' :: 'e' :: rest => some (.bool true, rest)
    | 'f' :: 'a' :: 'l' :: 's' :: 'e' :: rest => some (.bool false, rest)
    | 'n' :: 'u' :: 'l' :: 'l' :: rest => some (.null, rest)
    | rest => (parseNumber rest).map (fun p => (.num p.1, p.2))

/-- Parse the elements of a JSON array (after the opening bracket, at least
one element). `acc` holds the elements parsed so far, reversed. -/
def parseElems : ℕ → List Char → List JVal → Option (JVal × List Char)
  | 0, _, _ => none
  | fuel + 1, cs, acc => do
    let (v, cs2) ← parseVal fuel cs
    match skipWs cs2 with
    | ',' :: rest => parseElems fuel (skipWs rest) (v :: acc)
    | ']' :: rest => some (.arr (v :: acc).reverse, rest)
    | _ => none

/-- Parse the members of a JSON object (after the opening brace, at least
one member). `acc` holds the pairs parsed so far, reversed; duplicate keys
are resolved as Python's decoder does, by successive dict assignment. -/
def parseMembers : ℕ → List Char → List (String × JVal) → Option (JVal × List Char)
  | 0, _, _ => none
  | fuel + 1, cs, acc =>
    match skipWs cs with
    | '"' :: rest => do
      let (ks, cs2) ← parseStrChars rest
      match skipWs cs2 with
      | ':' :: rest2 => do
        let (v, cs3) ← parseVal fuel (skipWs rest2)
        let acc2 := (String.mk ks, v) :: acc
        match skipWs cs3 with
        | ',' :: rest3 => parseMembers fuel (skipWs rest3) acc2
        | '\x7d' :: rest3 =>
          some (.obj (acc2.reverse.foldl (fun d kv => dictSet d kv.1 kv.2) []), rest3)
        | _ => none
      | _ => none
    | _ => none

end

/-- Python `json.loads`: parse a complete JSON document, requiring only
whitespace to remain. A failure models `json.JSONDecodeError`. -/
def jsonLoads (s : String) : Except PyErr JVal :=
  match parseVal (2 * s.length + 2) s.data with
  | some (v, rest) => if (skipWs rest).isEmpty then .ok v else .error .jsonParseError
  | none => .error .jsonParseError

/-- Python `v[k]` on a JSON value: `KeyError` when the key is missing,
`TypeError` when the value is not a dict. -/
def pyGetItem (v : JVal) (k : String) : Except PyErr JVal :=
  match v with
  | .obj d =>
    match dictGet d k with
    | some x => .ok x
    | none => .error (.keyError k)
  | _ => .error (.typeError "object is not subscriptable")

/-- Python `v[k] = x` on a JSON value. -/
def pySetItem (v : JVal) (k : String) (x : JVal) : Except PyErr JVal :=
  match v with
  | .obj d => .ok (.obj (dictSet d k x))
  | _ => .error (.typeError "object does not support item assignment")

/-- Python `v[k1][k2][k3] = x` (as in `body["query"]["bool"]["filter"] = c`):
the two lookups happen first and can raise, then the innermost dict is
updated and, the model being functional, written back along the path (the
source mutates the shared inner dict, which has the same effect). -/
def pySetItem3 (v : JVal) (k1 k2 k3 : String) (x : JVal) : Except PyErr JVal := do
  let i1 ← pyGetItem v k1
  let i2 ← pyGetItem i1 k2
  let i2x ← pySetItem i2 k3 x
  let i1x ← pySetItem i1 k2 i2x
  pySetItem v k1 i1x

/-- The `[\x7b"terms": \x7bkey: values\x7d\x7d, ...]` filter clause built
(without validation) by the match-all path, the embedding path and
`get_all_documents_in_index`. -/
def filter_clause (fs : List (String × JVal)) : JVal :=
  .arr (fs.map fun kv => .obj [("terms", .obj [(kv.1, kv.2)])])

/-- The keyword-relevance path's filter loop: each value must be a list
(`type(values) != list` raises the `ValueError` the spec calls
`InvalidFilterFormat`), and each entry becomes a `terms` clause. -/
def build_filter_validated : List (String × JVal) → Except PyErr (List JVal)
  | [] => .ok []
  | (k, v) :: rest =>
    if v.isArr then
      (fun cs => JVal.obj [("terms", .obj [(k, v)])] :: cs) <$> build_filter_validated rest
    else .error (.invalidFilterFormat k)

/-- `ElasticsearchDocumentStore.query`, branch 1 (`query is None`): match-all
with an optional unvalidated filter clause. -/
def match_all_branch (filters : Option (List (String × JVal))) : Except PyErr JVal := do
  let body : JVal :=
    .obj [("query", .obj [("bool", .obj [("must", .obj [("match_all", .obj [])])])])]
  if pyTruthyList filters then
    pySetItem3 body "query" "bool" "filter" (filter_clause (filters.getD []))
  else .ok body

/-- The substitution mapping built in the custom-query branch:
`\x7b"question": query\x7d` extended with the JSON encoding of each filter
value under that filter's key. -/
def custom_substitutions (q : String) (filters : Option (List (String × JVal))) :
    List (String × String) :=
  let subs := [("question", q)]
  if pyTruthyList filters then
    (filters.getD []).foldl (fun acc kv => dictSetS acc kv.1 (jsonDumps kv.2)) subs
  else subs

/-- `ElasticsearchDocumentStore.query`, branch 2 (`custom_query` truthy):
substitute the placeholders, parse the result as the query body, then set
`body["size"] = str(top_k)`. -/
def custom_branch (q : String) (cq : String) (filters : Option (List (String × JVal)))
    (top_k : ℕ) : Except PyErr JVal :=
  match template_substitute cq (custom_substitutions q filters) with
  | .error e => .error (liftTemplErr e)
  | .ok s => do
    let body ← jsonLoads s
    pySetItem body "size" (.str (toString top_k))

/-- `ElasticsearchDocumentStore.query`, branch 3 (default): BM25 `multi_match`
over the configured search fields, `size` capped at `top_k`, with the
validated filter clause ANDed in when filters were passed. -/
def keyword_branch (cfg : ESConfig) (q : String) (filters : Option (List (String × JVal)))
    (top_k : ℕ) : Except PyErr JVal := do
  let body : JVal :=
    .obj [("size", .str (toString top_k)),
          ("query", .obj [("bool", .obj [("should",
            .arr [.obj [("multi_match", .obj [("query", .str q),
                                              ("type", .str "most_fields"),
                                              ("fields", .arr (cfg.search_fields.map .str))])]])])])]
  if pyTruthyList filters then do
    let cs ← build_filter_validated (filters.getD [])
    pySetItem3 body "query" "bool" "filter" (.arr cs)
  else .ok body

/-- The `_source`-exclusion step shared by every query shape: when
`excluded_meta_data` is truthy, `body["_source"] = \x7b"excludes": [...]\x7d`. -/
def excluded_step (cfg : ESConfig) (body : JVal) : Except PyErr JVal :=
  if pyTruthyList cfg.excluded_meta_data then
    pySetItem body "_source" (.obj [("excludes", .arr ((cfg.excluded_meta_data.getD []).map .str))])
  else .ok body

/-- The query body constructed by `ElasticsearchDocumentStore.query` (the
part of the method before `self.client.search`): shape dispatch in source
order, then the `_source` exclusion. An error result models a raise before
any search request is issued. -/
def query_body (cfg : ESConfig) (q : Option String) (filters : Option (List (String × JVal)))
    (top_k : ℕ) (custom_query : Option String) : Except PyErr JVal := do
  let body ←
    match q with
    | none => match_all_branch filters
    | some qs =>
      if pyTruthyStr custom_query then custom_branch qs (custom_query.getD "") filters top_k
      else keyword_branch cfg qs filters top_k
  excluded_step cfg body

/-- The strings a field tested by the hit-conversion exclusion tuple
`(text_field, faq_question_field, embedding_field, "tags")` can equal (a
string key never equals a `None` entry of the tuple). -/
def conversionExcluded (cfg : ESConfig) : List String :=
  match cfg.faq_question_field with
  | some f => [cfg.text_field, f, cfg.embedding_field, "tags"]
  | none => [cfg.text_field, cfg.embedding_field, "tags"]

/-- `ElasticsearchDocumentStore._convert_es_hit_to_document`.
The `meta` dict takes every `_source` field outside the exclusion tuple,
then `meta_data["name"] = meta_data.pop(self.name_field, None)`; the scored
fields come from `_source.get`, and `query_score` adds `score_adjustment`
to a truthy `_score` (Python `None` and `0` are falsy). -/
def convert_es_hit_to_document (cfg : ESConfig) (hit : ESHit) (score_adjustment : ℚ) :
    Document :=
  let meta0 := hit.source.filter fun kv => !((conversionExcluded cfg).contains kv.1)
  let nameVal := optJ (dictGet meta0 cfg.name_field)
  let meta1 := dictSet (dictPop meta0 cfg.name_field) "name" nameVal
  { id := hit.id
    text := dictGet hit.source cfg.text_field
    meta := meta1
    embedding := dictGet hit.source cfg.embedding_field
    question :=
      match cfg.faq_question_field with
      | some f => dictGet hit.source f
      | none => none
    tags := dictGet hit.source "tags"
    query_score :=
      match hit.score with
      | some s => if s = 0 then none else some (s + score_adjustment)
      | none => none }

/-- `ElasticsearchDocumentStore.query` end to end: build the body, issue the
search (the engine's ranked hits are an input of the model) and convert
every hit with score adjustment `0`. -/
def query (cfg : ESConfig) (q : Option String) (filters : Option (List (String × JVal)))
    (top_k : ℕ) (custom_query : Option String) (hits : List ESHit) :
    Except PyErr (JVal × List Document) := do
  let body ← query_body cfg q filters top_k custom_query
  .ok (body, hits.map fun h => convert_es_hit_to_document cfg h 0)

/-- The painless script of the embedding query: cosine similarity against the
stored embedding field plus the `+ 1.0` offset. -/
def scriptSource (field : String) : String :=
  "cosineSimilarity(params.query_vector,doc[" ++ sq ++ field ++ sq ++ "]) + 1.0"

/-- The query body constructed by `ElasticsearchDocumentStore.query_by_embedding`
before `self.client.search`: requires `embedding_field` to be configured,
builds the `script_score` body, then (when filters are truthy) executes
`body["query"]["bool"]["filter"] = filter_clause` exactly as written in the
source — the lookup of `"bool"` inside the `script_score` dict is what it is. -/
def query_by_embedding_body (cfg : ESConfig) (query_emb : List ℚ)
    (filters : Option (List (String × JVal))) (top_k : ℕ) : Except PyErr JVal := do
  if cfg.embedding_field = "" then
    .error (.runtimeError "Please specify arg `embedding_field` in ElasticsearchDocumentStore()")
  else
    let body : JVal :=
      .obj [("size", .num top_k),
            ("query", .obj [("script_score",
              .obj [("query", .obj [("match_all", .obj [])]),
                    ("script", .obj [("source", .str (scriptSource cfg.embedding_field)),
                                     ("params", .obj [("query_vector",
                                        .arr (query_emb.map .num))])])])])]
    let body ←
      if pyTruthyList filters then
        pySetItem3 body "query" "bool" "filter" (filter_clause (filters.getD []))
      else .ok body
    excluded_step cfg body

/-- `ElasticsearchDocumentStore.query_by_embedding` end to end: build the
body, issue the search and convert every hit with `score_adjustment=-1`. -/
def query_by_embedding (cfg : ESConfig) (query_emb : List ℚ)
    (filters : Option (List (String × JVal))) (top_k : ℕ) (hits : List ESHit) :
    Except PyErr (JVal × List Document) := do
  let body ← query_by_embedding_body cfg query_emb filters top_k
  .ok (body, hits.map fun h => convert_es_hit_to_document cfg h (-1))

/-- Hoisting of the `meta` mapping into a record: the source's
`for k, v in _doc["meta"].items(): _doc[k] = v` loop. -/
def metaFold (d : List (String × JVal)) (m : List (String × JVal)) : List (String × JVal) :=
  m.foldl (fun acc kv => dictSet acc kv.1 kv.2) d

/-- The bulk record `write_documents` builds for one document: tag with
`_op_type: "create"` and the target index, splice in `Document.to_dict`,
rename `id` to `_id` (via `str`), drop `query_score`, drop `None`-valued
entries, then hoist the `meta` entries to the top level and drop `meta`. -/
def docToBulkRecord (index : String) (doc : Document) : List (String × JVal) :=
  let d0 := [("_op_type", JVal.str "create"), ("_index", JVal.str index)] ++ doc.to_dict
  let idv := optJ (dictGet d0 "id")
  let d1 := dictSet (dictPop d0 "id") "_id" (.str (pyStr idv))
  let d2 := dictPop d1 "query_score"
  let d3 := d2.filter fun kv => !kv.2.isNull
  match dictGet d3 "meta" with
  | some (.obj m) => dictPop (metaFold d3 m) "meta"
  | _ => d3

/-- `ElasticsearchDocumentStore.write_documents` (documents already in
`Document` form): the single bulk call submitted, with `request_timeout=300`
and `refresh="wait_for"`. -/
def write_documents (cfg : ESConfig) (documents : List Document) (index : Option String) :
    BulkCall :=
  let idx := index.getD cfg.index
  { records := documents.map (docToBulkRecord idx)
    request_timeout := some 300
    refresh := some "wait_for" }

/-- The hard-coded default of `write_labels`' `index` parameter
(`index: Optional[str] = "label"`). -/
def write_labels_default_index : Option String := some "label"

/-- The bulk record `write_labels` builds for one label. -/
def labelToBulkRecord (index : Option String) (label : Label) : List (String × JVal) :=
  [("_op_type", JVal.str "create"),
   ("_index", match index with
     | some s => JVal.str s
     | none => JVal.null)] ++ label.to_dict

/-- `ElasticsearchDocumentStore.write_labels` (labels already in `Label`
form): the single bulk call submitted, with `request_timeout=300` and
`refresh="wait_for"`. The method never reads `self.label_index`. -/
def write_labels (cfg : ESConfig) (labels : List Label) (index : Option String) : BulkCall :=
  let _ := cfg
  { records := labels.map (labelToBulkRecord index)
    request_timeout := some 300
    refresh := some "wait_for" }

/-- The `RuntimeError` message of the embedding-dimension check in
`update_embeddings`, naming the provider's dimension and the configured
dimension. -/
def dimMismatchMsg (modelDim storeDim : ℕ) : String :=
  "Embedding dim. of model (" ++ toString modelDim ++
    ") doesn't match embedding dim. in documentstore (" ++ toString storeDim ++
    ").Specify the arg `embedding_dim` when initializing ElasticsearchDocumentStore()"

/-- `ElasticsearchDocumentStore.update_embeddings`: the documents fetched by
the full scan and the retriever's `embed_passages` are inputs of the model.
Checks `embedding_field`, asserts one embedding per document, indexes
`embeddings[0]` (an `IndexError` on an empty list), compares its length to
`embedding_dim`, and only then builds the per-document `update` records and
the bulk call — which carries `request_timeout=300` and no `refresh`
argument. An error result means no bulk operation was submitted. -/
def update_embeddings (cfg : ESConfig) (index : Option String) (docs : List Document)
    (embed_passages : List (Option JVal) → List (List ℚ)) : Except PyErr BulkCall :=
  let idx := index.getD cfg.index
  if cfg.embedding_field = "" then
    .error (.runtimeError
      "Specify the arg `embedding_field` when initializing ElasticsearchDocumentStore()")
  else
    let embeddings := embed_passages (docs.map Document.text)
    if docs.length = embeddings.length then
      match embeddings with
      | [] => .error .indexError
      | e :: _ =>
        if e.length ≠ cfg.embedding_dim then
          .error (.runtimeError (dimMismatchMsg e.length cfg.embedding_dim))
        else
          .ok { records := (docs.zip embeddings).map fun de =>
                  [("_op_type", JVal.str "update"),
                   ("_index", JVal.str idx),
                   ("_id", JVal.str de.1.id),
                   ("doc", JVal.obj [(cfg.embedding_field, .arr (de.2.map .num))])]
                request_timeout := some 300
                refresh := none }
    else .error .assertionError

/-- Substring containment, used to state that an error message names a
dimension. -/
def strContains (s t : String) : Prop := ∃ a b : String, s = a ++ t ++ b

/-- Dot product of two rational vectors. -/
def dotQ (u v : List ℚ) : ℚ := (List.zipWith (fun a b => a * b) u v).sum

/-- Modelled from the spec: the engine-side `cosineSimilarity(u, v)` of the
painless script is characterized implicitly — `c` is the cosine of `u` and
`v` iff `c² · (u·u)(v·v) = (u·v)²` and `c` has the sign of `u·v` (this pins
`c = (u·v)/(‖u‖‖v‖)` whenever both norms are nonzero, without needing square
roots). -/
def cosineSimSpec (u v : List ℚ) (c : ℚ) : Prop :=
  c ^ 2 * (dotQ u u * dotQ v v) = dotQ u v ^ 2 ∧ (0 ≤ c ↔ 0 ≤ dotQ u v)

/-- Modelled from the spec: the score the engine reports for a hit under the
embedding query is the cosine similarity of the query vector and the stored
embedding plus the `+ 1.0` offset of the script. -/
def engineScoreSpec (u v : List ℚ) (s : ℚ) : Prop :=
  ∃ c : ℚ, cosineSimSpec u v c ∧ s = c + 1

/-- A fallible result never being the spec's `InvalidFilterFormat` error. -/
def notIFF (r : Except PyErr α) : Prop :=
  ∀ k, r ≠ .error (.invalidFilterFormat k)

/-- The default construction-time configuration of the store. -/
def defaultCfg : ESConfig := {}

/-- A sample label. -/
def exLabel : Label :=
  { question := "q", answer := "a", is_correct_answer := true,
    is_correct_document := true, no_answer := false, origin := "gold",
    document_id := "d1", model_id := "m1", type := "t", offset_start_in_doc := 0 }

/-- A sample document for the embedding-refresh claims. -/
def exDocE : Document := { id := "d1", text := some (.str "hello") }

/-- A configuration with embedding dimension 2. -/
def cfgDim2 : ESConfig := { defaultCfg with embedding_dim := 2 }

/-- An embedding provider returning one 2-dimensional vector. -/
def exProv2 : List (Option JVal) → List (List ℚ) := fun _ => [[1, 2]]

/-- The bulk call the sample embedding refresh submits. -/
def exBulkE : BulkCall :=
  { records := [[("_op_type", .str "update"), ("_index", .str "document"),
                 ("_id", .str "d1"),
                 ("doc", .obj [("embedding", .arr [.num 1, .num 2])])]],
    request_timeout := some 300, refresh := none }

/-- A configuration with embedding dimension 128. -/
def cfg128 : ESConfig := { defaultCfg with embedding_dim := 128 }

/-- An embedding provider returning one 64-dimensional vector. -/
def prov64 : List (Option JVal) → List (List ℚ) := fun _ => [List.replicate 64 0]

/-- A sample hit whose stored embedding `[1]` will also serve as the query
vector; the engine score is the cosine (`1`) plus the script offset. -/
def exHit : ESHit := { id := "h1", source := [("text", .str "t")], score := some 2 }

/-- The sample custom-query template of the spec's testable property, with
`${question}` and `${year}` placeholders. -/
def tW : String := "\x7b\"a\": ${year}, \"b\": \"${question}\"\x7d"

/-- The record keys `write_documents` itself populates; the spec makes meta
keys colliding with reserved field names a caller responsibility, so the
amended claim assumes the document's meta keys avoid them. -/
def reservedRecordKeys : List String :=
  ["_op_type", "_index", "id", "_id", "query_score", "meta",
   "text", "embedding", "question", "tags"]

/-- A document whose meta holds a null value (as produced, for example, by
converting a hit that has no stored name field and writing it back). -/
def exDocNull : Document :=
  { id := "1", text := some (.str "t"), meta := [("foo", .null)] }

/-- A document with an ordinary meta entry. -/
def exDoc3 : Document :=
  { id := "1", text := some (.str "t"), meta := [("author", .str "x")] }

/-- A hit with no stored name field. -/
def exHitNoName : ESHit := { id := "h1", source := [("text", .str "t")], score := none }

/-- A hit with a stored name field and an extra stored field. -/
def exHit2 : ESHit :=
  { id := "h2", source := [("text", .str "t"), ("name", .str "N"), ("year", .num 2020)],
    score := none }

theorem dictGet_eq_none {d : List (String × JVal)} {k : String}
    (h : k ∉ d.map Prod.fst) : dictGet d k = none := by
  induction d with
  | nil => rfl
  | cons kv d ih =>
    obtain ⟨k0, v0⟩ := kv
    simp only [List.map_cons, List.mem_cons] at h
    push_neg at h
    simp [dictGet, Ne.symm h.1, ih h.2]

theorem mem_of_dictGet_some {d : List (String × JVal)} {k : String} {v : JVal}
    (h : dictGet d k = some v) : (k, v) ∈ d := by
  induction d with
  | nil => simp [dictGet] at h
  | cons kv d ih =>
    obtain ⟨k0, v0⟩ := kv
    by_cases hk : k0 = k
    · subst hk
      simp [dictGet] at h
      simp [h]
    · simp [dictGet, hk] at h
      exact List.mem_cons_of_mem _ (ih h)

theorem dictGet_set_self (d : List (String × JVal)) (k : String) (v : JVal) :
    dictGet (dictSet d k v) k = some v := by
  induction d with
  | nil => simp [dictSet, dictGet]
  | cons kv d ih =>
    obtain ⟨k0, v0⟩ := kv
    by_cases hk : k0 = k
    · simp [dictSet, hk, dictGet]
    · simp [dictSet, hk, dictGet, ih]

theorem dictGet_set_ne (d : List (String × JVal)) {k2 k : String} (v : JVal)
    (h : k2 ≠ k) : dictGet (dictSet d k v) k2 = dictGet d k2 := by
  induction d with
  | nil => simp [dictSet, dictGet, Ne.symm h]
  | cons kv d ih =>
    obtain ⟨k0, v0⟩ := kv
    by_cases hk : k0 = k
    · subst hk
      simp [dictSet, dictGet, Ne.symm h]
    · by_cases hk2 : k0 = k2 <;> simp [dictSet, dictGet, hk, hk2, h, ih]

theorem dictGet_pop_ne (d : List (String × JVal)) {k2 k : String}
    (h : k2 ≠ k) : dictGet (dictPop d k) k2 = dictGet d k2 := by
  induction d with
  | nil => rfl
  | cons kv d ih =>
    obtain ⟨k0, v0⟩ := kv
    by_cases hk : k0 = k
    · subst hk
      simp [dictPop, dictGet, Ne.symm h]
    · by_cases hk2 : k0 = k2 <;> simp [dictPop, dictGet, hk, hk2, h, ih]

theorem dictGet_pop_self {d : List (String × JVal)} (k : String)
    (h : (d.map Prod.fst).Nodup) : dictGet (dictPop d k) k = none := by
  induction d with
  | nil => rfl
  | cons kv d ih =>
    obtain ⟨k0, v0⟩ := kv
    simp only [List.map_cons, List.nodup_cons] at h
    by_cases hk : k0 = k
    · subst hk
      simp only [dictPop, if_pos rfl]
      exact dictGet_eq_none h.1
    · simp [dictPop, dictGet, hk, ih h.2]

theorem dictGet_filter_key (d : List (String × JVal)) (p : String → Bool) (k : String) :
    dictGet (d.filter fun kv => p kv.1) k = if p k then dictGet d k else none := by
  induction d with
  | nil => simp [dictGet]
  | cons kv d ih =>
    obtain ⟨k0, v0⟩ := kv
    by_cases hk : k0 = k
    · subst hk
      by_cases hp : p k0 <;> simp [List.filter_cons, dictGet, hp, ih]
    · by_cases hp : p k0 <;> simp [List.filter_cons, dictGet, hp, hk, ih]

theorem dictGet_filterV_none {d : List (String × JVal)} (p : String × JVal → Bool)
    {k : String} (h : dictGet d k = none) : dictGet (d.filter p) k = none := by
  induction d with
  | nil => rfl
  | cons kv d ih =>
    obtain ⟨k0, v0⟩ := kv
    by_cases hk : k0 = k
    · simp [dictGet, hk] at h
    · simp only [dictGet, if_neg hk] at h
      by_cases hp : p (k0, v0) <;> simp [List.filter_cons, hp, dictGet, hk, ih h]

theorem dictGet_filterV_some {d : List (String × JVal)} (p : String × JVal → Bool)
    {k : String} {v : JVal} (hnd : (d.map Prod.fst).Nodup) (h : dictGet d k = some v) :
    dictGet (d.filter p) k = if p (k, v) then some v else none := by
  induction d with
  | nil => simp [dictGet] at h
  | cons kv d ih =>
    obtain ⟨k0, v0⟩ := kv
    simp only [List.map_cons, List.nodup_cons] at hnd
    by_cases hk : k0 = k
    · subst hk
      have hv : v0 = v := by simpa [dictGet] using h
      subst hv
      by_cases hp : p (k0, v0)
      · simp [List.filter_cons, hp, dictGet]
      · simp only [List.filter_cons, hp, Bool.false_eq_true, if_false, if_neg hp]
        exact dictGet_filterV_none p (dictGet_eq_none hnd.1)
    · simp only [dictGet, if_neg hk] at h
      by_cases hp : p (k0, v0) <;> simp [List.filter_cons, hp, dictGet, hk, ih hnd.2 h]

theorem keys_dictSet (d : List (String × JVal)) (k : String) (v : JVal) :
    (dictSet d k v).map Prod.fst =
      if k ∈ d.map Prod.fst then d.map Prod.fst else d.map Prod.fst ++ [k] := by
  induction d with
  | nil => simp [dictSet]
  | cons kv d ih =>
    obtain ⟨k0, v0⟩ := kv
    by_cases hk : k0 = k
    · subst hk
      simp [dictSet]
    · simp only [dictSet, if_neg hk, List.map_cons, ih, List.mem_cons]
      by_cases hm : k ∈ d.map Prod.fst <;> simp [hm, Ne.symm hk]

theorem nodup_keys_dictSet {d : List (String × JVal)} (k : String) (v : JVal)
    (h : (d.map Prod.fst).Nodup) : ((dictSet d k v).map Prod.fst).Nodup := by
  rw [keys_dictSet]
  by_cases hm : k ∈ d.map Prod.fst
  · simpa [hm]
  · simp only [hm, if_false]
    rw [List.nodup_append]
    refine ⟨h, List.nodup_singleton _, ?_⟩
    intro a ha hb
    simp only [List.mem_singleton] at hb
    subst hb
    exact hm ha

theorem nodup_keys_metaFold {m d : List (String × JVal)}
    (h : (d.map Prod.fst).Nodup) : ((metaFold d m).map Prod.fst).Nodup := by
  induction m generalizing d with
  | nil => exact h
  | cons kv m ih => exact ih (nodup_keys_dictSet kv.1 kv.2 h)

theorem dictGet_metaFold_not_mem {m d : List (String × JVal)} {k : String}
    (h : k ∉ m.map Prod.fst) : dictGet (metaFold d m) k = dictGet d k := by
  induction m generalizing d with
  | nil => rfl
  | cons kv m ih =>
    obtain ⟨k0, v0⟩ := kv
    simp only [List.map_cons, List.mem_cons, not_or] at h
    calc dictGet (metaFold d ((k0, v0) :: m)) k
        = dictGet (metaFold (dictSet d k0 v0) m) k := rfl
      _ = dictGet (dictSet d k0 v0) k := ih h.2
      _ = dictGet d k := dictGet_set_ne _ _ h.1

theorem dictGet_metaFold_mem {m d : List (String × JVal)} {k : String} {v : JVal}
    (hnd : (m.map Prod.fst).Nodup) (h : (k, v) ∈ m) :
    dictGet (metaFold d m) k = some v := by
  induction m generalizing d with
  | nil => simp at h
  | cons kv m ih =>
    simp only [List.map_cons, List.nodup_cons] at hnd
    rcases List.mem_cons.mp h with h1 | h2
    · subst h1
      rw [show metaFold d ((k, v) :: m) = metaFold (dictSet d k v) m from rfl,
        dictGet_metaFold_not_mem hnd.1, dictGet_set_self]
    · exact ih hnd.2 h2

theorem mem_dictSet {d : List (String × JVal)} {kv : String × JVal} {k : String} {v : JVal}
    (h : kv ∈ dictSet d k v) : kv ∈ d ∨ kv = (k, v) := by
  induction d with
  | nil => simpa [dictSet] using h
  | cons kv0 d ih =>
    obtain ⟨k0, v0⟩ := kv0
    by_cases hk : k0 = k
    · subst hk
      rw [show dictSet ((k0, v0) :: d) k0 v = (k0, v) :: d from by simp [dictSet]] at h
      rcases List.mem_cons.mp h with h | h
      · exact Or.inr h
      · exact Or.inl (List.mem_cons_of_mem _ h)
    · rw [show dictSet ((k0, v0) :: d) k v = (k0, v0) :: dictSet d k v from by
        simp [dictSet, hk]] at h
      rcases List.mem_cons.mp h with h | h
      · exact Or.inl (by simp [h])
      · rcases ih h with h2 | h2
        · exact Or.inl (List.mem_cons_of_mem _ h2)
        · exact Or.inr h2

theorem mem_metaFold {m d : List (String × JVal)} {kv : String × JVal}
    (h : kv ∈ metaFold d m) : kv ∈ d ∨ kv ∈ m := by
  induction m generalizing d with
  | nil => exact Or.inl h
  | cons kv0 m ih =>
    rcases ih (d := dictSet d kv0.1 kv0.2) h with h2 | h2
    · rcases mem_dictSet h2 with h3 | h3
      · exact Or.inl h3
      · exact Or.inr (by simp [h3])
    · exact Or.inr (List.mem_cons_of_mem _ h2)

theorem mem_dictPop {d : List (String × JVal)} {kv : String × JVal} {k : String}
    (h : kv ∈ dictPop d k) : kv ∈ d := by
  induction d with
  | nil => simp [dictPop] at h
  | cons kv0 d ih =>
    obtain ⟨k0, v0⟩ := kv0
    by_cases hk : k0 = k
    · subst hk
      simp only [dictPop, if_pos rfl] at h
      exact List.mem_cons_of_mem _ h
    · simp only [dictPop, if_neg hk, List.mem_cons] at h
      rcases h with h | h
      · simp [h]
      · exact List.mem_cons_of_mem _ (ih h)

theorem dictSetS_fresh {acc : List (String × String)} {k : String} (v : String)
    (h : k ∉ acc.map Prod.fst) : dictSetS acc k v = acc ++ [(k, v)] := by
  induction acc with
  | nil => rfl
  | cons kv acc ih =>
    obtain ⟨k0, v0⟩ := kv
    simp only [List.map_cons, List.mem_cons] at h
    push_neg at h
    simp [dictSetS, Ne.symm h.1, ih h.2]

theorem mem_dictPop_ne {d : List (String × JVal)} {kv : String × JVal} {k : String}
    (hnd : (d.map Prod.fst).Nodup) (h : kv ∈ dictPop d k) : kv.1 ≠ k := by
  induction d with
  | nil => simp [dictPop] at h
  | cons kv0 d ih =>
    obtain ⟨k0, v0⟩ := kv0
    simp only [List.map_cons, List.nodup_cons] at hnd
    by_cases hk : k0 = k
    · subst hk
      simp only [dictPop, if_pos rfl] at h
      intro hc
      exact hnd.1 (hc ▸ List.mem_map_of_mem Prod.fst h)
    · simp only [dictPop, if_neg hk, List.mem_cons] at h
      rcases h with h | h
      · subst h
        exact hk
      · exact ih hnd.2 h

theorem dictGet_of_mem_nodup {d : List (String × JVal)} {k : String} {v : JVal}
    (hnd : (d.map Prod.fst).Nodup) (h : (k, v) ∈ d) : dictGet d k = some v := by
  induction d with
  | nil => simp at h
  | cons kv0 d ih =>
    obtain ⟨k0, v0⟩ := kv0
    simp only [List.map_cons, List.nodup_cons] at hnd
    rcases List.mem_cons.mp h with h | h
    · cases h
      simp [dictGet]
    · have hk : k0 ≠ k := by
        intro hc
        subst hc
        exact hnd.1 (List.mem_map_of_mem Prod.fst h)
      simp only [dictGet, if_neg hk]
      exact ih hnd.2 h

theorem nodup_keys_filter {d : List (String × JVal)} (p : String × JVal → Bool)
    (h : (d.map Prod.fst).Nodup) : ((d.filter p).map Prod.fst).Nodup :=
  (List.Sublist.map Prod.fst (List.filter_sublist d)).nodup h

theorem foldl_dictSetS (f : String × JVal → String) :
    ∀ (fs : List (String × JVal)) (acc : List (String × String)),
      (∀ k ∈ fs.map Prod.fst, k ∉ acc.map Prod.fst) → (fs.map Prod.fst).Nodup →
      fs.foldl (fun a kv => dictSetS a kv.1 (f kv)) acc =
        acc ++ fs.map fun kv => (kv.1, f kv) := by
  intro fs
  induction fs with
  | nil => intro acc _ _; simp
  | cons kv fs ih =>
    intro acc h1 h2
    obtain ⟨k0, v0⟩ := kv
    simp only [List.map_cons, List.nodup_cons] at h2
    have hfresh : k0 ∉ acc.map Prod.fst := h1 k0 (by simp)
    have step : dictSetS acc k0 (f (k0, v0)) = acc ++ [(k0, f (k0, v0))] :=
      dictSetS_fresh _ hfresh
    simp only [List.foldl_cons, step]
    rw [ih (acc ++ [(k0, f (k0, v0))])]
    · simp
    · intro k hk
      simp only [List.map_append, List.mem_append, List.map_cons, List.map_nil,
        List.mem_singleton, not_or]
      exact ⟨h1 k (by simp [hk]), by
        intro hc
        exact h2.1 (hc ▸ hk)⟩
    · exact h2.2

theorem custom_substitutions_eq (q : String) (fs : List (String × JVal))
    (h1 : "question" ∉ fs.map Prod.fst) (h2 : (fs.map Prod.fst).Nodup) :
    custom_substitutions q (some fs) =
      ("question", q) :: fs.map fun kv => (kv.1, jsonDumps kv.2) := by
  unfold custom_substitutions
  by_cases hfs : fs.isEmpty
  · rw [List.isEmpty_iff] at hfs
    subst hfs
    simp [pyTruthyList]
  · have ht : pyTruthyList (some fs) = true := by simp [pyTruthyList, hfs]
    simp only [ht, if_pos, Option.getD_some]
    rw [foldl_dictSetS (fun kv => jsonDumps kv.2) fs [("question", q)]]
    · rfl
    · intro k hk
      simp only [List.map_cons, List.map_nil, List.mem_singleton]
      intro hc
      exact h1 (hc ▸ hk)
    · exact h2

theorem notIFF_bind {e : Except PyErr α} {f : α → Except PyErr β}
    (h1 : notIFF e) (h2 : ∀ a, notIFF (f a)) : notIFF (e >>= f) := by
  intro k h
  cases e with
  | error err =>
    have hr : (Except.error err >>= f : Except PyErr β) = Except.error err := rfl
    rw [hr] at h
    injection h with h
    exact h1 k (by rw [h])
  | ok a =>
    have hr : (Except.ok a >>= f : Except PyErr β) = f a := rfl
    rw [hr] at h
    exact h2 a k h

theorem notIFF_ok (a : α) : notIFF (Except.ok a : Except PyErr α) := by
  intro k h
  exact Except.noConfusion h

theorem notIFF_pyGetItem (v : JVal) (k : String) : notIFF (pyGetItem v k) := by
  intro k2 h
  cases v with
  | obj d =>
    rcases hq : dictGet d k with _ | x <;> simp [pyGetItem, hq] at h
  | null => simp [pyGetItem] at h
  | bool b => simp [pyGetItem] at h
  | num q => simp [pyGetItem] at h
  | str s => simp [pyGetItem] at h
  | arr xs => simp [pyGetItem] at h

theorem notIFF_pySetItem (v : JVal) (k : String) (x : JVal) : notIFF (pySetItem v k x) := by
  intro k2 h
  cases v <;> simp [pySetItem] at h

theorem notIFF_pySetItem3 (v : JVal) (k1 k2 k3 : String) (x : JVal) :
    notIFF (pySetItem3 v k1 k2 k3 x) := by
  unfold pySetItem3
  refine notIFF_bind (notIFF_pyGetItem _ _) fun i1 => ?_
  refine notIFF_bind (notIFF_pyGetItem _ _) fun i2 => ?_
  refine notIFF_bind (notIFF_pySetItem _ _ _) fun i2x => ?_
  refine notIFF_bind (notIFF_pySetItem _ _ _) fun i1x => ?_
  exact notIFF_pySetItem _ _ _

theorem notIFF_jsonLoads (s : String) : notIFF (jsonLoads s) := by
  intro k h
  unfold jsonLoads at h
  rcases hp : parseVal (2 * s.length + 2) s.data with _ | ⟨v, rest⟩ <;> rw [hp] at h
  · simp at h
  · by_cases he : (skipWs rest).isEmpty <;> simp [he] at h

theorem notIFF_excluded_step (cfg : ESConfig) (body : JVal) :
    notIFF (excluded_step cfg body) := by
  unfold excluded_step
  by_cases ht : pyTruthyList cfg.excluded_meta_data
  · simp only [ht, if_pos]
    exact notIFF_pySetItem _ _ _
  · simp only [ht, Bool.false_eq_true, if_false]
    exact notIFF_ok _

theorem notIFF_custom_branch (q cq : String) (filters : Option (List (String × JVal)))
    (top_k : ℕ) : notIFF (custom_branch q cq filters top_k) := by
  unfold custom_branch
  rcases ht : template_substitute cq (custom_substitutions q filters) with e | s
  · intro k h
    cases e <;> simp [liftTemplErr] at h
  · exact notIFF_bind (notIFF_jsonLoads s) fun b => notIFF_pySetItem _ _ _

theorem build_filter_validated_error {fs : List (String × JVal)}
    (h : ∃ kv ∈ fs, kv.2.isArr = false) :
    ∃ k, build_filter_validated fs = .error (.invalidFilterFormat k) ∧
      ∃ v, (k, v) ∈ fs ∧ v.isArr = false := by
  induction fs with
  | nil => simp at h
  | cons kv fs ih =>
    obtain ⟨k0, v0⟩ := kv
    by_cases ha : v0.isArr
    · have h2 : ∃ kv ∈ fs, kv.2.isArr = false := by
        obtain ⟨kv2, hmem, hfalse⟩ := h
        rcases List.mem_cons.mp hmem with h3 | h3
        · rw [h3] at hfalse
          rw [hfalse] at ha
          simp at ha
        · exact ⟨kv2, h3, hfalse⟩
      obtain ⟨k, hk, v, hv, hf⟩ := ih h2
      refine ⟨k, ?_, v, List.mem_cons_of_mem _ hv, hf⟩
      simp only [build_filter_validated, ha, if_pos, hk]
      rfl
    · refine ⟨k0, ?_, v0, List.mem_cons_self .., by simpa using ha⟩
      simp [build_filter_validated, ha]

theorem build_filter_validated_ok {fs : List (String × JVal)}
    (h : ∀ kv ∈ fs, kv.2.isArr = true) :
    ∃ cs, build_filter_validated fs = .ok cs := by
  induction fs with
  | nil => exact ⟨[], rfl⟩
  | cons kv fs ih =>
    obtain ⟨k0, v0⟩ := kv
    have ha : v0.isArr = true := h (k0, v0) (List.mem_cons_self ..)
    obtain ⟨cs, hcs⟩ := ih fun kv2 h2 => h kv2 (List.mem_cons_of_mem _ h2)
    refine ⟨JVal.obj [("terms", .obj [(k0, v0)])] :: cs, ?_⟩
    simp [build_filter_validated, ha, hcs]

theorem match_all_branch_ok (filters : Option (List (String × JVal))) :
    ∃ d, match_all_branch filters = .ok (.obj d) := by
  by_cases ht : pyTruthyList filters
  · refine ⟨[("query", .obj [("bool", .obj [("must", .obj [("match_all", .obj [])]),
      ("filter", filter_clause (filters.getD []))])])], ?_⟩
    unfold match_all_branch
    rw [if_pos ht]
    rfl
  · refine ⟨[("query", .obj [("bool", .obj [("must", .obj [("match_all", .obj [])])])])], ?_⟩
    unfold match_all_branch
    rw [if_neg ht]

theorem keyword_branch_error {fs : List (String × JVal)} (cfg : ESConfig) (q : String)
    (top_k : ℕ) (h : ∃ kv ∈ fs, kv.2.isArr = false) :
    ∃ k, keyword_branch cfg q (some fs) top_k = .error (.invalidFilterFormat k) ∧
      ∃ v, (k, v) ∈ fs ∧ v.isArr = false := by
  obtain ⟨k, hbfv, hwit⟩ := build_filter_validated_error h
  have ht : pyTruthyList (some fs) = true := by
    obtain ⟨kv, hmem, _⟩ := h
    cases fs with
    | nil => simp at hmem
    | cons a l => simp [pyTruthyList]
  refine ⟨k, ?_, hwit⟩
  unfold keyword_branch
  rw [if_pos ht]
  show (build_filter_validated fs >>= _) = _
  rw [hbfv]
  rfl

theorem keyword_branch_ok {fs : List (String × JVal)} (cfg : ESConfig) (q : String)
    (top_k : ℕ) (h : ∀ kv ∈ fs, kv.2.isArr = true) :
    ∃ d, keyword_branch cfg q (some fs) top_k = .ok (.obj d) := by
  by_cases ht : pyTruthyList (some fs)
  · obtain ⟨cs, hcs⟩ := build_filter_validated_ok h
    refine ⟨[("size", .str (toString top_k)),
      ("query", .obj [("bool", .obj [("should",
        .arr [.obj [("multi_match", .obj [("query", .str q),
                                          ("type", .str "most_fields"),
                                          ("fields", .arr (cfg.search_fields.map .str))])]]),
        ("filter", .arr cs)])])], ?_⟩
    unfold keyword_branch
    rw [if_pos ht]
    show (build_filter_validated fs >>= _) = _
    rw [hcs]
    rfl
  · refine ⟨[("size", .str (toString top_k)),
      ("query", .obj [("bool", .obj [("should",
        .arr [.obj [("multi_match", .obj [("query", .str q),
                                          ("type", .str "most_fields"),
                                          ("fields", .arr (cfg.search_fields.map .str))])]])])])], ?_⟩
    unfold keyword_branch
    rw [if_neg ht]

theorem keyword_branch_none_ok (cfg : ESConfig) (q : String) (top_k : ℕ) :
    ∃ d, keyword_branch cfg q none top_k = .ok (.obj d) := by
  refine ⟨[("size", .str (toString top_k)),
    ("query", .obj [("bool", .obj [("should",
      .arr [.obj [("multi_match", .obj [("query", .str q),
                                        ("type", .str "most_fields"),
                                        ("fields", .arr (cfg.search_fields.map .str))])]])])])], ?_⟩
  unfold keyword_branch
  rfl

theorem dotQ_self_nonneg (v : List ℚ) : 0 ≤ dotQ v v := by
  induction v with
  | nil => simp [dotQ]
  | cons a l ih =>
    have h : dotQ (a :: l) (a :: l) = a * a + dotQ l l := by simp [dotQ]
    rw [h]
    exact add_nonneg (mul_self_nonneg a) ih

theorem cosineSimSpec_self_eq_one {v : List ℚ} {c : ℚ} (h0 : dotQ v v ≠ 0)
    (hc : cosineSimSpec v v c) : c = 1 := by
  obtain ⟨heq, hsign⟩ := hc
  have hpos : 0 < dotQ v v := lt_of_le_of_ne (dotQ_self_nonneg v) (Ne.symm h0)
  have hsq : c ^ 2 = 1 := by
    have hne : dotQ v v * dotQ v v ≠ 0 := mul_ne_zero h0 h0
    have h2 : c ^ 2 * (dotQ v v * dotQ v v) = 1 * (dotQ v v * dotQ v v) := by
      rw [heq]
      ring
    exact mul_right_cancel₀ hne h2
  have hc0 : 0 ≤ c := hsign.mpr (le_of_lt hpos)
  have h2 : (c - 1) * (c + 1) = 0 := by nlinarith [hsq]
  rcases mul_eq_zero.mp h2 with h3 | h3
  · linarith
  · linarith

theorem excluded_step_obj (cfg : ESConfig) (d : List (String × JVal)) :
    ∃ d2, excluded_step cfg (.obj d) = .ok (.obj d2) := by
  unfold excluded_step
  by_cases ht : pyTruthyList cfg.excluded_meta_data
  · refine ⟨dictSet d "_source"
      (.obj [("excludes", .arr ((cfg.excluded_meta_data.getD []).map .str))]), ?_⟩
    simp [ht, pySetItem]
  · exact ⟨d, by simp [ht]⟩

theorem notIFF_query_by_embedding_body (cfg : ESConfig) (emb : List ℚ)
    (filters : Option (List (String × JVal))) (top_k : ℕ) :
    notIFF (query_by_embedding_body cfg emb filters top_k) := by
  unfold query_by_embedding_body
  by_cases hf : cfg.embedding_field = ""
  · rw [if_pos hf]
    intro k h
    simp at h
  · rw [if_neg hf]
    by_cases ht : pyTruthyList filters
    · rw [if_pos ht]
      exact notIFF_bind (notIFF_pySetItem3 _ _ _ _ _) fun b => notIFF_excluded_step cfg b
    · rw [if_neg ht]
      exact notIFF_bind (notIFF_ok _) fun b => notIFF_excluded_step cfg b

theorem excluded_step_none {cfg : ESConfig} (hexcl : cfg.excluded_meta_data = none)
    (x : JVal) : excluded_step cfg x = .ok x := by
  unfold excluded_step
  rw [hexcl]
  rfl

/-- C10: a `writeLabels` call with no index argument writes to the index
literally named "label" (the hard-coded parameter default), regardless of
the label-index name configured at construction time: the bulk call is
independent of the configuration, and every record carries
`_index = "label"`. -/
theorem C10_write_labels_hardcoded_default :
    ∀ (cfg cfg2 : ESConfig) (labels : List Label),
      write_labels cfg labels write_labels_default_index =
        write_labels cfg2 labels write_labels_default_index ∧
      ∀ r ∈ (write_labels cfg labels write_labels_default_index).records,
        dictGet r "_index" = some (.str "label") := by
  intro cfg cfg2 labels
  refine ⟨rfl, ?_⟩
  intro r hr
  simp only [write_labels, List.mem_map] at hr
  obtain ⟨l, _, rfl⟩ := hr
  rfl

/-- Witness for C10 at a concrete label and a configuration whose
construction-time label index is not "label". -/
theorem C10_witness :
    dictGet (labelToBulkRecord write_labels_default_index exLabel) "_index" =
      some (.str "label") :=
  (C10_write_labels_hardcoded_default { defaultCfg with label_index := "other" }
    defaultCfg [exLabel]).2 _ (List.mem_singleton.mpr rfl)

/-- C5: `query_by_embedding` with a non-empty filters mapping raises
`KeyError("bool")` while building the body (the `script_score` query dict
has no "bool" key for `body["query"]["bool"]["filter"]` to index), so no
search request reaches the engine — contrary to the claim that the filter
clause is ANDed in as on the default path and the request is issued. -/
theorem C5_embedding_filters_crash :
    query_by_embedding defaultCfg [1] (some [("year", .arr [.str "2020"])]) 10 [] =
      .error (.keyError "bool") := by rfl

/-- C1 counterexample: on the match-all path (no query text) a non-list
filter value does not raise `InvalidFilterFormat`; the body is built and the
raw value is passed straight into the terms clause. -/
theorem C1_counterexample :
    query_body defaultCfg none (some [("year", .num 2020)]) 10 none =
      .ok (.obj [("query", .obj [("bool",
        .obj [("must", .obj [("match_all", .obj [])]),
              ("filter", .arr [.obj [("terms", .obj [("year", .num 2020)])]])])])]) := by rfl

/-- C1 amended: only the default keyword-relevance shape validates filter
values. On that shape a non-list value raises `InvalidFilterFormat` before
any search request is issued, and all-list filters raise no error; the
match-all shape never raises at all, and neither the custom-template shape
nor the embedding path can raise `InvalidFilterFormat`. -/
theorem C1_amended_only_keyword_validates :
    ∀ (cfg : ESConfig) (q : String) (fs : List (String × JVal))
      (filters : Option (List (String × JVal))) (top_k : ℕ)
      (custom_query : Option String) (cq : String) (emb : List ℚ),
      ((∃ kv ∈ fs, kv.2.isArr = false) →
        ∃ k, query_body cfg (some q) (some fs) top_k none =
            .error (.invalidFilterFormat k) ∧
          ∃ v, (k, v) ∈ fs ∧ v.isArr = false) ∧
      ((∀ kv ∈ fs, kv.2.isArr = true) →
        isOkE (query_body cfg (some q) (some fs) top_k none) = true) ∧
      isOkE (query_body cfg none filters top_k custom_query) = true ∧
      (cq ≠ "" →
        ∀ k, query_body cfg (some q) filters top_k (some cq) ≠
          .error (.invalidFilterFormat k)) ∧
      (∀ k, query_by_embedding_body cfg emb filters top_k ≠
        .error (.invalidFilterFormat k)) := by
  intro cfg q fs filters top_k custom_query cq emb
  refine ⟨?_, ?_, ?_, ?_, notIFF_query_by_embedding_body cfg emb filters top_k⟩
  · intro h
    obtain ⟨k, hkb, hwit⟩ := keyword_branch_error cfg q top_k h
    refine ⟨k, ?_, hwit⟩
    show (keyword_branch cfg q (some fs) top_k >>= excluded_step cfg) = _
    rw [hkb]
    rfl
  · intro h
    obtain ⟨d, hd⟩ := keyword_branch_ok cfg q top_k h
    obtain ⟨d2, hd2⟩ := excluded_step_obj cfg d
    show isOkE (keyword_branch cfg q (some fs) top_k >>= excluded_step cfg) = true
    rw [hd]
    show isOkE (excluded_step cfg (.obj d)) = true
    rw [hd2]
    rfl
  · obtain ⟨d, hd⟩ := match_all_branch_ok filters
    obtain ⟨d2, hd2⟩ := excluded_step_obj cfg d
    show isOkE (match_all_branch filters >>= excluded_step cfg) = true
    rw [hd]
    show isOkE (excluded_step cfg (.obj d)) = true
    rw [hd2]
    rfl
  · intro hcq
    have htt : pyTruthyStr (some cq) = true := by simp [pyTruthyStr, hcq]
    have hq : query_body cfg (some q) filters top_k (some cq) =
        custom_branch q cq filters top_k >>= excluded_step cfg := by
      unfold query_body
      rw [htt]
      rfl
    rw [hq]
    exact notIFF_bind (notIFF_custom_branch q cq filters top_k)
      fun b => notIFF_excluded_step cfg b

/-- Witness for C1's amended statement: a concrete non-list filter value on
the keyword path raises `InvalidFilterFormat`, and a concrete list value
does not. -/
theorem C1_witness :
    (∃ k, query_body defaultCfg (some "cats") (some [("year", .num 2020)]) 10 none =
        .error (.invalidFilterFormat k) ∧
      ∃ v, (k, v) ∈ [("year", JVal.num 2020)] ∧ v.isArr = false) ∧
    isOkE (query_body defaultCfg (some "cats") (some [("year", .arr [.num 2020])]) 10 none)
      = true := by
  constructor
  · exact (C1_amended_only_keyword_validates defaultCfg "cats" [("year", .num 2020)]
      none 10 none "x" []).1 ⟨("year", .num 2020), List.mem_singleton.mpr rfl, rfl⟩
  · exact (C1_amended_only_keyword_validates defaultCfg "cats" [("year", .arr [.num 2020])]
      none 10 none "x" []).2.1 fun kv h => by
        rw [List.mem_singleton.mp h]
        rfl

/-- C8 counterexample: with query text and the (supplied but empty) custom
template `""`, the code builds the keyword shape — the body equals the one
built with no template at all — while the templated computation for that
template would have failed to parse. -/
theorem C8_counterexample_empty_template :
    custom_branch "cats" "" none 10 = .error .jsonParseError ∧
    query_body defaultCfg (some "cats") none 10 (some "") =
      query_body defaultCfg (some "cats") none 10 none := ⟨rfl, rfl⟩

/-- C8 amended: query-shape selection is mutually exclusive and evaluated in
priority order, with Python truthiness deciding whether a template counts:
no query text always builds the match-all(+filter) shape, even when a
template is supplied; query text with a non-empty template builds the
templated shape (substitute, parse, set size); query text with no template
or an empty template builds the keyword shape capped at `top_k`. -/
theorem C8_amended_shape_dispatch :
    ∀ (cfg : ESConfig) (top_k : ℕ) (q t : String) (ct : Option String)
      (fs : List (String × JVal)) (s : String) (b : JVal),
      cfg.excluded_meta_data = none →
      (query_body cfg none none top_k ct =
          .ok (.obj [("query", .obj [("bool",
            .obj [("must", .obj [("match_all", .obj [])])])])]) ∧
        (fs ≠ [] → query_body cfg none (some fs) top_k ct =
          .ok (.obj [("query", .obj [("bool",
            .obj [("must", .obj [("match_all", .obj [])]),
                  ("filter", filter_clause fs)])])]))) ∧
      (t ≠ "" →
        template_substitute t (custom_substitutions q none) = .ok s →
        jsonLoads s = .ok b →
        query_body cfg (some q) none top_k (some t) =
          pySetItem b "size" (.str (toString top_k))) ∧
      (query_body cfg (some q) none top_k none =
          .ok (.obj [("size", .str (toString top_k)),
            ("query", .obj [("bool", .obj [("should",
              .arr [.obj [("multi_match", .obj [("query", .str q),
                                                ("type", .str "most_fields"),
                                                ("fields",
                                                  .arr (cfg.search_fields.map .str))])]])])])]) ∧
        query_body cfg (some q) none top_k (some "") =
          query_body cfg (some q) none top_k none) := by
  intro cfg top_k q t ct fs s b hexcl
  have hstep : ∀ x : JVal, excluded_step cfg x = .ok x := by
    intro x
    unfold excluded_step
    rw [hexcl]
    rfl
  refine ⟨⟨?_, ?_⟩, ?_, ?_, rfl⟩
  · calc query_body cfg none none top_k ct
        = excluded_step cfg (.obj [("query", .obj [("bool",
            .obj [("must", .obj [("match_all", .obj [])])])])]) := rfl
      _ = _ := hstep _
  · intro hfs
    have ht : pyTruthyList (some fs) = true := by
      cases fs with
      | nil => exact absurd rfl hfs
      | cons a l => simp [pyTruthyList]
    have hma : match_all_branch (some fs) =
        .ok (.obj [("query", .obj [("bool",
          .obj [("must", .obj [("match_all", .obj [])]),
                ("filter", filter_clause fs)])])]) := by
      unfold match_all_branch
      rw [if_pos ht]
      rfl
    calc query_body cfg none (some fs) top_k ct
        = match_all_branch (some fs) >>= excluded_step cfg := rfl
      _ = excluded_step cfg (.obj [("query", .obj [("bool",
            .obj [("must", .obj [("match_all", .obj [])]),
                  ("filter", filter_clause fs)])])]) := by
            rw [hma]
            rfl
      _ = _ := hstep _
  · intro ht hsub hparse
    have hcb : custom_branch q t none top_k =
        pySetItem b "size" (.str (toString top_k)) := by
      unfold custom_branch
      rw [hsub]
      show (jsonLoads s >>= _) = _
      rw [hparse]
      rfl
    have htt : pyTruthyStr (some t) = true := by simp [pyTruthyStr, ht]
    have hq : query_body cfg (some q) none top_k (some t) =
        custom_branch q t none top_k >>= excluded_step cfg := by
      unfold query_body
      rw [htt]
      rfl
    rw [hq, hcb]
    rcases hps : pySetItem b "size" (.str (toString top_k)) with e | x
    · rfl
    · show excluded_step cfg x = .ok x
      exact hstep x
  · calc query_body cfg (some q) none top_k none
        = excluded_step cfg (.obj [("size", .str (toString top_k)),
            ("query", .obj [("bool", .obj [("should",
              .arr [.obj [("multi_match", .obj [("query", .str q),
                                                ("type", .str "most_fields"),
                                                ("fields",
                                                  .arr (cfg.search_fields.map .str))])]])])])]) :=
        rfl
      _ = _ := hstep _

/-- Witness for C8's amended statement: concrete calls exercising the three
shapes, including a concrete template substituted, parsed and sized. -/
theorem C8_witness :
    query_body defaultCfg none none 10 (some "ignored") =
      .ok (.obj [("query", .obj [("bool",
        .obj [("must", .obj [("match_all", .obj [])])])])]) ∧
    query_body defaultCfg (some "cats") none 5
        (some "\x7b\"q\": \"${question}\"\x7d") =
      pySetItem (.obj [("q", .str "cats")]) "size" (.str "5") ∧
    query_body defaultCfg (some "cats") none 10 none =
      .ok (.obj [("size", .str "10"),
        ("query", .obj [("bool", .obj [("should",
          .arr [.obj [("multi_match", .obj [("query", .str "cats"),
                                            ("type", .str "most_fields"),
                                            ("fields", .arr [.str "text"])])]])])])]) := by
  refine ⟨?_, ?_, ?_⟩
  · exact (C8_amended_shape_dispatch defaultCfg 10 "x" "x" (some "ignored") [] "" .null
      rfl).1.1
  · exact (C8_amended_shape_dispatch defaultCfg 5 "cats" "\x7b\"q\": \"${question}\"\x7d"
      none [] "\x7b\"q\": \"cats\"\x7d" (.obj [("q", .str "cats")]) rfl).2.1
      (by intro h; exact absurd h (by decide)) rfl rfl
  · exact (C8_amended_shape_dispatch defaultCfg 10 "cats" "x" none [] "" .null rfl).2.2.1

/-- C6 counterexample: a successful `update_embeddings` run submits its bulk
call without the `refresh="wait_for"` flag (the `refresh` argument is simply
not passed), contradicting the claim that every bulk write carries it. -/
theorem C6_counterexample :
    (update_embeddings cfgDim2 none [exDocE] exProv2).map BulkCall.refresh = .ok none ∧
    (update_embeddings cfgDim2 none [exDocE] exProv2).map BulkCall.refresh ≠
      .ok (some "wait_for") := by
  constructor
  · rfl
  · intro h
    have h1 : (update_embeddings cfgDim2 none [exDocE] exProv2).map BulkCall.refresh =
        .ok (none : Option String) := rfl
    rw [h1] at h
    injection h with h
    exact Option.noConfusion h

/-- C6 amended: `writeDocuments` and `writeLabels` both carry
`refresh="wait_for"` and `request_timeout=300`; the per-document embedding
updates of `refreshEmbeddings` carry the bounded `request_timeout=300` but
not the wait-for-visibility flag. -/
theorem C6_amended_bulk_flags :
    ∀ (cfg : ESConfig) (docs : List Document) (index : Option String)
      (labels : List Label) (lindex : Option String) (index2 : Option String)
      (docs2 : List Document) (prov : List (Option JVal) → List (List ℚ))
      (b : BulkCall),
      (write_documents cfg docs index).refresh = some "wait_for" ∧
      (write_documents cfg docs index).request_timeout = some 300 ∧
      (write_labels cfg labels lindex).refresh = some "wait_for" ∧
      (write_labels cfg labels lindex).request_timeout = some 300 ∧
      (update_embeddings cfg index2 docs2 prov = .ok b →
        b.request_timeout = some 300 ∧ b.refresh = none) := by
  intro cfg docs index labels lindex index2 docs2 prov b
  refine ⟨rfl, rfl, rfl, rfl, ?_⟩
  intro h
  simp only [update_embeddings] at h
  split at h
  · exact Except.noConfusion h
  · split at h
    · split at h
      · exact Except.noConfusion h
      · split at h
        · exact Except.noConfusion h
        · injection h with h
          rw [← h]
          exact ⟨rfl, rfl⟩
    · exact Except.noConfusion h

/-- Witness for C6's amended statement at concrete inputs, including a
successful embedding refresh. -/
theorem C6_witness :
    update_embeddings cfgDim2 none [exDocE] exProv2 = .ok exBulkE ∧
    (write_documents defaultCfg [exDocE] none).refresh = some "wait_for" ∧
    exBulkE.request_timeout = some 300 ∧ exBulkE.refresh = none := by
  refine ⟨rfl, ?_, ?_⟩
  · exact (C6_amended_bulk_flags defaultCfg [exDocE] none [] none none [] exProv2
      exBulkE).1
  · exact (C6_amended_bulk_flags cfgDim2 [] none [] none none [exDocE] exProv2
      exBulkE).2.2.2.2 rfl

/-- C7: when the provider returns one vector per document but the first
vector's length differs from the configured embedding dimension,
`update_embeddings` fails with a `RuntimeError` whose message names both
dimensions, and no bulk update is submitted. -/
theorem C7_dim_mismatch :
    ∀ (cfg : ESConfig) (index : Option String) (docs : List Document)
      (prov : List (Option JVal) → List (List ℚ)) (e : List ℚ) (es : List (List ℚ)),
      cfg.embedding_field ≠ "" →
      docs.length = (prov (docs.map Document.text)).length →
      prov (docs.map Document.text) = e :: es →
      e.length ≠ cfg.embedding_dim →
      update_embeddings cfg index docs prov =
          .error (.runtimeError (dimMismatchMsg e.length cfg.embedding_dim)) ∧
        strContains (dimMismatchMsg e.length cfg.embedding_dim) (toString e.length) ∧
        strContains (dimMismatchMsg e.length cfg.embedding_dim)
          (toString cfg.embedding_dim) ∧
        ∀ b, update_embeddings cfg index docs prov ≠ .ok b := by
  intro cfg index docs prov e es hf hl hemb hd
  have hl2 : docs.length = (e :: es).length := hemb ▸ hl
  have hupd : update_embeddings cfg index docs prov =
      .error (.runtimeError (dimMismatchMsg e.length cfg.embedding_dim)) := by
    simp only [update_embeddings]
    rw [if_neg hf, hemb, if_pos hl2]
    show (if e.length ≠ cfg.embedding_dim then
        (Except.error (PyErr.runtimeError (dimMismatchMsg e.length cfg.embedding_dim)) :
          Except PyErr BulkCall)
      else _) = _
    rw [if_pos hd]
  refine ⟨hupd, ?_, ?_, ?_⟩
  · refine ⟨"Embedding dim. of model (",
      ") doesn't match embedding dim. in documentstore (" ++
        toString cfg.embedding_dim ++
        ").Specify the arg `embedding_dim` when initializing ElasticsearchDocumentStore()",
      ?_⟩
    simp [dimMismatchMsg, String.append_assoc]
  · refine ⟨"Embedding dim. of model (" ++ toString e.length ++
      ") doesn't match embedding dim. in documentstore (",
      ").Specify the arg `embedding_dim` when initializing ElasticsearchDocumentStore()",
      ?_⟩
    simp [dimMismatchMsg, String.append_assoc]
  · intro b hb
    rw [hupd] at hb
    exact Except.noConfusion hb

/-- Witness for C7: `embedding_dim=128` with a provider returning a
64-length vector fails with a message naming both 128 and 64. -/
theorem C7_witness :
    update_embeddings cfg128 none [exDocE] prov64 =
      .error (.runtimeError (dimMismatchMsg 64 128)) ∧
    strContains (dimMismatchMsg 64 128) "64" ∧
    strContains (dimMismatchMsg 64 128) "128" := by
  have h := C7_dim_mismatch cfg128 none [exDocE] prov64 (List.replicate 64 0) []
    (by decide) rfl rfl (by decide)
  exact ⟨h.1, h.2.1, h.2.2.1⟩

/-- C2: a converted document's `query_score` is the engine score plus the
shape-specific adjustment — `0` on the `query` path, `-1` on the
`query_by_embedding` path (undoing the `+1.0` script offset); a missing or
zero engine score yields no `query_score`; consequently a hit whose stored
embedding equals the query vector (engine score `cosine+1` with cosine `1`)
comes back with `query_score` exactly `1`. -/
theorem C2_query_score_adjustment :
    ∀ (cfg : ESConfig),
      (∀ (hit : ESHit) (s : ℚ), hit.score = some s → s ≠ 0 →
        (convert_es_hit_to_document cfg hit 0).query_score = some s) ∧
      (∀ (hit : ESHit) (s : ℚ), hit.score = some s → s ≠ 0 →
        (convert_es_hit_to_document cfg hit (-1)).query_score = some (s - 1)) ∧
      (∀ (hit : ESHit) (adj : ℚ), hit.score = none ∨ hit.score = some 0 →
        (convert_es_hit_to_document cfg hit adj).query_score = none) ∧
      (∀ (q : Option String) (f : Option (List (String × JVal))) (top_k : ℕ)
         (ct : Option String) (hits : List ESHit) (b : JVal) (docs : List Document),
        query cfg q f top_k ct hits = .ok (b, docs) →
          docs = hits.map fun h => convert_es_hit_to_document cfg h 0) ∧
      (∀ (emb : List ℚ) (f : Option (List (String × JVal))) (top_k : ℕ)
         (hits : List ESHit) (b : JVal) (docs : List Document),
        query_by_embedding cfg emb f top_k hits = .ok (b, docs) →
          docs = hits.map fun h => convert_es_hit_to_document cfg h (-1)) ∧
      (∀ (hit : ESHit) (v : List ℚ) (s : ℚ), hit.score = some s →
        engineScoreSpec v v s → dotQ v v ≠ 0 →
        (convert_es_hit_to_document cfg hit (-1)).query_score = some 1) := by
  intro cfg
  refine ⟨?_, ?_, ?_, ?_, ?_, ?_⟩
  · intro hit s hs hne
    simp [convert_es_hit_to_document, hs, hne]
  · intro hit s hs hne
    simp only [convert_es_hit_to_document, hs]
    rw [if_neg hne]
    rw [sub_eq_add_neg]
  · intro hit adj h
    rcases h with h | h <;> simp [convert_es_hit_to_document, h]
  · intro q f top_k ct hits b docs h
    unfold query at h
    rcases hqb : query_body cfg q f top_k ct with e | body
    · rw [hqb] at h
      exact Except.noConfusion h
    · rw [hqb] at h
      show docs = _
      injection h with h
      exact (congrArg Prod.snd h).symm
  · intro emb f top_k hits b docs h
    unfold query_by_embedding at h
    rcases hqb : query_by_embedding_body cfg emb f top_k with e | body
    · rw [hqb] at h
      exact Except.noConfusion h
    · rw [hqb] at h
      show docs = _
      injection h with h
      exact (congrArg Prod.snd h).symm
  · intro hit v s hs hes h0
    obtain ⟨c, hcs, hsum⟩ := hes
    have hc1 : c = 1 := cosineSimSpec_self_eq_one h0 hcs
    rw [hc1] at hsum
    have hne : s ≠ 0 := by rw [hsum]; norm_num
    simp only [convert_es_hit_to_document, hs]
    rw [if_neg hne, hsum]
    norm_num

/-- Witness for C2 at concrete hits: score 2 on the embedding path converts
to exactly 1 (identical embedding and query vector), a zero score converts
to an absent score, and score 2 on the query path stays 2. -/
theorem C2_witness :
    (convert_es_hit_to_document defaultCfg exHit (-1)).query_score = some 1 ∧
    (convert_es_hit_to_document defaultCfg
      { exHit with score := some 0 } 0).query_score = none ∧
    (convert_es_hit_to_document defaultCfg exHit 0).query_score = some 2 := by
  refine ⟨?_, ?_, ?_⟩
  · exact (C2_query_score_adjustment defaultCfg).2.2.2.2.2 exHit [1] 2 rfl
      ⟨1, ⟨by norm_num [dotQ], by norm_num [dotQ]⟩, by norm_num⟩ (by norm_num [dotQ])
  · exact (C2_query_score_adjustment defaultCfg).2.2.1
      { exHit with score := some 0 } 0 (Or.inr rfl)
  · exact (C2_query_score_adjustment defaultCfg).1 exHit 2 rfl (by norm_num)

/-- C4: with a query text, filters and a (non-empty) custom template, the
body sent to the engine is the template with `${question}` replaced by the
raw query string and each filter-key placeholder replaced by the JSON
encoding of that key's value list, parsed as a query body, with the `size`
parameter then injected/overwritten with `top_k`. -/
theorem C4_custom_query_templating :
    ∀ (cfg : ESConfig) (q : String) (fs : List (String × JVal)) (top_k : ℕ)
      (t s : String) (b : JVal),
      cfg.excluded_meta_data = none →
      t ≠ "" →
      "question" ∉ fs.map Prod.fst →
      (fs.map Prod.fst).Nodup →
      template_substitute t
          (("question", q) :: fs.map fun kv => (kv.1, jsonDumps kv.2)) = .ok s →
      jsonLoads s = .ok b →
      query_body cfg (some q) (some fs) top_k (some t) =
        pySetItem b "size" (.str (toString top_k)) := by
  intro cfg q fs top_k t s b hexcl ht hq hnd hsub hparse
  have hsubs := custom_substitutions_eq q fs hq hnd
  have hcb : custom_branch q t (some fs) top_k =
      pySetItem b "size" (.str (toString top_k)) := by
    unfold custom_branch
    rw [hsubs, hsub]
    show (jsonLoads s >>= _) = _
    rw [hparse]
    rfl
  have htt : pyTruthyStr (some t) = true := by simp [pyTruthyStr, ht]
  have hqb : query_body cfg (some q) (some fs) top_k (some t) =
      custom_branch q t (some fs) top_k >>= excluded_step cfg := by
    unfold query_body
    rw [htt]
    rfl
  rw [hqb, hcb]
  rcases hps : pySetItem b "size" (.str (toString top_k)) with e | x
  · rfl
  · show excluded_step cfg x = .ok x
    exact excluded_step_none hexcl x

/-- Witness for C4: the concrete template substitutes `cats` and `[2020]`,
parses, and gets `size = 7` injected. -/
theorem C4_witness :
    query_body defaultCfg (some "cats") (some [("year", .arr [.num 2020])]) 7 (some tW) =
      .ok (.obj [("a", .arr [.num 2020]), ("b", .str "cats"), ("size", .str "7")]) := by
  have h := C4_custom_query_templating defaultCfg "cats" [("year", .arr [.num 2020])] 7 tW
    "\x7b\"a\": [2020], \"b\": \"cats\"\x7d"
    (.obj [("a", .arr [.num 2020]), ("b", .str "cats")])
    rfl (by decide) (by decide) (by decide) rfl rfl
  exact h.trans rfl

/-- C3 counterexample: meta flattening happens after the drop-absent-values
step, so a null-valued meta entry does appear in the bulk record,
contradicting clause (4) of the claim. -/
theorem C3_counterexample :
    ¬ (∀ kv ∈ docToBulkRecord "document" exDocNull, kv.2 ≠ JVal.null) := by
  intro h
  have hm : ("foo", JVal.null) ∈ docToBulkRecord "document" exDocNull := by
    have hr : docToBulkRecord "document" exDocNull =
        [("_op_type", .str "create"), ("_index", .str "document"),
         ("text", .str "t"), ("_id", .str "1"), ("foo", .null)] := rfl
    rw [hr]
    exact List.mem_cons_of_mem _ (List.mem_cons_of_mem _ (List.mem_cons_of_mem _
      (List.mem_cons_of_mem _ (List.mem_singleton.mpr rfl))))
  exact h _ hm rfl

/-- C3 amended: for a document whose meta keys avoid the reserved record
keys (the spec's stated caller responsibility), the bulk record is tagged
`_op_type="create"` and `_index`, has `id` removed and its string form under
`_id`, has no `query_score`, drops the document's own absent-valued
attributes — any null-valued entry left can only be a hoisted meta entry —
and contains every meta pair at top level with the meta container removed. -/
theorem C3_amended_bulk_record (index : String) (doc : Document)
    (h1 : (doc.meta.map Prod.fst).Nodup)
    (h2 : ∀ k ∈ doc.meta.map Prod.fst, k ∉ reservedRecordKeys) :
    dictGet (docToBulkRecord index doc) "_op_type" = some (.str "create") ∧
    dictGet (docToBulkRecord index doc) "_index" = some (.str index) ∧
    dictGet (docToBulkRecord index doc) "id" = none ∧
    dictGet (docToBulkRecord index doc) "_id" = some (.str doc.id) ∧
    dictGet (docToBulkRecord index doc) "query_score" = none ∧
    (∀ kv ∈ docToBulkRecord index doc, kv.2 = JVal.null → kv ∈ doc.meta) ∧
    (∀ kv ∈ doc.meta, dictGet (docToBulkRecord index doc) kv.1 = some kv.2) ∧
    dictGet (docToBulkRecord index doc) "meta" = none := by
  set D2 : List (String × JVal) :=
    [("_op_type", .str "create"), ("_index", .str index),
     ("text", optJ doc.text), ("meta", .obj doc.meta),
     ("embedding", optJ doc.embedding), ("question", optJ doc.question),
     ("tags", optJ doc.tags), ("_id", .str doc.id)] with hD2
  have hkeys : D2.map Prod.fst =
      ["_op_type", "_index", "text", "meta", "embedding", "question", "tags", "_id"] := by
    rw [hD2]
    rfl
  have hnd2 : (D2.map Prod.fst).Nodup := by
    rw [hkeys]
    decide
  have hndD3 : ((D2.filter fun kv => !kv.2.isNull).map Prod.fst).Nodup :=
    nodup_keys_filter _ hnd2
  have hmeta3 : dictGet (D2.filter fun kv => !kv.2.isNull) "meta" = some (.obj doc.meta) := by
    have hg : dictGet D2 "meta" = some (.obj doc.meta) := by rw [hD2]; rfl
    simpa using dictGet_filterV_some (fun kv => !kv.2.isNull) hnd2 hg
  have hrec : docToBulkRecord index doc =
      dictPop (metaFold (D2.filter fun kv => !kv.2.isNull) doc.meta) "meta" := by
    show (match dictGet (D2.filter fun kv => !kv.2.isNull) "meta" with
          | some (.obj m) => dictPop (metaFold (D2.filter fun kv => !kv.2.isNull) m) "meta"
          | _ => D2.filter fun kv => !kv.2.isNull) =
        dictPop (metaFold (D2.filter fun kv => !kv.2.isNull) doc.meta) "meta"
    rw [hmeta3]
  have hnotmeta : ∀ k : String, k ∈ reservedRecordKeys → k ∉ doc.meta.map Prod.fst :=
    fun k hk hc => h2 k hc hk
  have hkey : ∀ k : String, k ≠ "meta" → k ∉ doc.meta.map Prod.fst →
      dictGet (docToBulkRecord index doc) k =
        dictGet (D2.filter fun kv => !kv.2.isNull) k := by
    intro k hkm hknm
    rw [hrec, dictGet_pop_ne _ hkm, dictGet_metaFold_not_mem hknm]
  refine ⟨?_, ?_, ?_, ?_, ?_, ?_, ?_, ?_⟩
  · rw [hkey "_op_type" (by decide) (hnotmeta _ (by decide))]
    have hg : dictGet D2 "_op_type" = some (.str "create") := by rw [hD2]; rfl
    simpa using dictGet_filterV_some (fun kv => !kv.2.isNull) hnd2 hg
  · rw [hkey "_index" (by decide) (hnotmeta _ (by decide))]
    have hg : dictGet D2 "_index" = some (.str index) := by rw [hD2]; rfl
    simpa using dictGet_filterV_some (fun kv => !kv.2.isNull) hnd2 hg
  · rw [hkey "id" (by decide) (hnotmeta _ (by decide))]
    have hg : dictGet D2 "id" = none := by rw [hD2]; rfl
    exact dictGet_filterV_none _ hg
  · rw [hkey "_id" (by decide) (hnotmeta _ (by decide))]
    have hg : dictGet D2 "_id" = some (.str doc.id) := by rw [hD2]; rfl
    simpa using dictGet_filterV_some (fun kv => !kv.2.isNull) hnd2 hg
  · rw [hkey "query_score" (by decide) (hnotmeta _ (by decide))]
    have hg : dictGet D2 "query_score" = none := by rw [hD2]; rfl
    exact dictGet_filterV_none _ hg
  · intro kv hkv hnull
    rw [hrec] at hkv
    rcases mem_metaFold (mem_dictPop hkv) with h | h
    · obtain ⟨_, hp⟩ := List.mem_filter.mp h
      rw [hnull] at hp
      simp [JVal.isNull] at hp
    · exact h
  · intro kv hkv
    have hkm : kv.1 ≠ "meta" := by
      intro hc
      exact h2 kv.1 (List.mem_map_of_mem Prod.fst hkv) (hc ▸ (by decide))
    rw [hrec, dictGet_pop_ne _ hkm]
    exact dictGet_metaFold_mem h1 hkv
  · rw [hrec]
    exact dictGet_pop_self _ (nodup_keys_metaFold hndD3)

/-- Witness for C3's amended statement at a concrete document. -/
theorem C3_witness :
    dictGet (docToBulkRecord "document" exDoc3) "_op_type" = some (.str "create") ∧
    dictGet (docToBulkRecord "document" exDoc3) "author" = some (.str "x") ∧
    dictGet (docToBulkRecord "document" exDoc3) "meta" = none := by
  have h := C3_amended_bulk_record "document" exDoc3 (by decide) (by decide)
  exact ⟨h.1, h.2.2.2.2.2.2.1 ("author", .str "x") (List.mem_singleton.mpr rfl),
    h.2.2.2.2.2.2.2⟩

/-- C9 counterexample: converting a hit with no stored name field puts a
`"name" ↦ null` entry into meta — a key that is not among the hit's stored
fields at all, contradicting the claim that meta holds exactly the
non-excluded stored fields (with the name field renamed). -/
theorem C9_counterexample :
    (convert_es_hit_to_document defaultCfg exHitNoName 0).meta = [("name", JVal.null)] ∧
    ¬ (∀ kv ∈ (convert_es_hit_to_document defaultCfg exHitNoName 0).meta,
        kv.1 ∈ exHitNoName.source.map Prod.fst) := by
  refine ⟨rfl, ?_⟩
  intro h
  have hm : ("name", JVal.null) ∈ (convert_es_hit_to_document defaultCfg exHitNoName 0).meta := by
    have hr : (convert_es_hit_to_document defaultCfg exHitNoName 0).meta =
        [("name", JVal.null)] := rfl
    rw [hr]
    exact List.mem_singleton.mpr rfl
  have := h _ hm
  simp [exHitNoName] at this

/-- C9 amended: the converted document's meta consists of the hit's stored
fields outside the exclusion tuple minus the name field, plus an
always-present `"name"` entry holding the (post-exclusion) stored name
field's value or null when absent; `text`, `embedding`, `tags` and
`question` come from their configured fields, and the id is the hit's id. -/
theorem C9_amended_hit_conversion (cfg : ESConfig) (hit : ESHit) (adj : ℚ)
    (hnd : (hit.source.map Prod.fst).Nodup) :
    (∀ kv ∈ (convert_es_hit_to_document cfg hit adj).meta,
        kv.1 = "name" ∨ (kv ∈ hit.source ∧ kv.1 ∉ conversionExcluded cfg ∧
          kv.1 ≠ cfg.name_field)) ∧
    dictGet (convert_es_hit_to_document cfg hit adj).meta "name" =
      some (optJ (if (conversionExcluded cfg).contains cfg.name_field then none
        else dictGet hit.source cfg.name_field)) ∧
    (∀ kv ∈ hit.source, kv.1 ∉ conversionExcluded cfg → kv.1 ≠ cfg.name_field →
        kv.1 ≠ "name" →
        dictGet (convert_es_hit_to_document cfg hit adj).meta kv.1 = some kv.2) ∧
    (cfg.name_field ≠ "name" →
      dictGet (convert_es_hit_to_document cfg hit adj).meta cfg.name_field = none) ∧
    (convert_es_hit_to_document cfg hit adj).text = dictGet hit.source cfg.text_field ∧
    (convert_es_hit_to_document cfg hit adj).embedding =
      dictGet hit.source cfg.embedding_field ∧
    (convert_es_hit_to_document cfg hit adj).tags = dictGet hit.source "tags" ∧
    ((convert_es_hit_to_document cfg hit adj).question =
      match cfg.faq_question_field with
      | some f => dictGet hit.source f
      | none => none) ∧
    (convert_es_hit_to_document cfg hit adj).id = hit.id := by
  have hmeta : (convert_es_hit_to_document cfg hit adj).meta =
      dictSet (dictPop (hit.source.filter
          fun kv => !((conversionExcluded cfg).contains kv.1)) cfg.name_field) "name"
        (optJ (dictGet (hit.source.filter
          fun kv => !((conversionExcluded cfg).contains kv.1)) cfg.name_field)) := rfl
  have hndM0 : ((hit.source.filter
      fun kv => !((conversionExcluded cfg).contains kv.1)).map Prod.fst).Nodup :=
    nodup_keys_filter _ hnd
  have hgetM0 : ∀ k, dictGet (hit.source.filter
      fun kv => !((conversionExcluded cfg).contains kv.1)) k =
      if (conversionExcluded cfg).contains k then none else dictGet hit.source k := by
    intro k
    rw [dictGet_filter_key hit.source (fun s => !((conversionExcluded cfg).contains s)) k]
    cases hc : (conversionExcluded cfg).contains k <;> simp [hc]
  refine ⟨?_, ?_, ?_, ?_, rfl, rfl, rfl, rfl, rfl⟩
  · intro kv hkv
    rw [hmeta] at hkv
    rcases mem_dictSet hkv with h | h
    · have hmem := mem_dictPop h
      have hne := mem_dictPop_ne hndM0 h
      obtain ⟨hs, hp⟩ := List.mem_filter.mp hmem
      right
      refine ⟨hs, ?_, hne⟩
      simpa using hp
    · left
      rw [h]
  · rw [hmeta, dictGet_set_self, hgetM0]
  · intro kv hkv hex hnf hnm
    rw [hmeta, dictGet_set_ne _ _ hnm, dictGet_pop_ne _ hnf, hgetM0]
    have hc : (conversionExcluded cfg).contains kv.1 = false := by simpa using hex
    rw [hc]
    simp only [Bool.false_eq_true, if_false]
    exact dictGet_of_mem_nodup hnd hkv
  · intro hnfn
    rw [hmeta, dictGet_set_ne _ _ hnfn]
    exact dictGet_pop_self _ hndM0

/-- Witness for C9's amended statement at a concrete hit. -/
theorem C9_witness :
    dictGet (convert_es_hit_to_document defaultCfg exHit2 0).meta "name" =
      some (.str "N") ∧
    dictGet (convert_es_hit_to_document defaultCfg exHit2 0).meta "year" =
      some (.num 2020) ∧
    (convert_es_hit_to_document defaultCfg exHit2 0).text = some (.str "t") := by
  have h := C9_amended_hit_conversion defaultCfg exHit2 0 (by decide)
  refine ⟨h.2.1.trans rfl, ?_, h.2.2.2.2.1.trans rfl⟩
  exact h.2.2.1 ("year", .num 2020)
    (List.mem_cons_of_mem _ (List.mem_cons_of_mem _ (List.mem_singleton.mpr rfl)))
    (by decide) (by decide) (by decide)

end HaystackES
